import Mathlib

/-!
Shallow embedding of `src/initialize.py` (koiluna/product_recommend).

The file initializes a session for a retrieval-augmented chat assistant:
it enriches a CSV product catalog with a generated `stock_status` column,
builds a hybrid retriever, and wires per-session logging and state.

External collaborators (the hosted language model, the Unicode tables and
the cp932 codec, the embedding service, the vector store, the lexical
retriever) are modelled as explicit parameters; everything else is
translated from the Python source.
-/

namespace ProductRecommend

/-! ### Python dynamic values

`adjust_string` receives arbitrary Python values (document metadata
values).  We model them as either a string or a non-string value; the
non-string payload is an abstract tag, since `adjust_string` never
inspects it. -/

inductive PyVal where
  | str (s : String)
  | nonStr (tag : Nat)
deriving DecidableEq

/-! ### String Sanitizer: `adjust_string` (src/initialize.py:133-154)

The Windows branch is `unicodedata.normalize('NFC', s)` followed by
`s.encode("cp932", "ignore").decode("cp932")`.  Both steps are external
library collaborators:

* `nfc : String → String` models `unicodedata.normalize('NFC', ·)`;
* `rt932 : Char → Option Char` models the per-character behaviour of the
  cp932 encode-with-ignore / decode round trip: `none` means the
  character is not representable in cp932 and is silently dropped;
  `some c` is the character the chosen cp932 byte sequence decodes back
  to (for most characters `c` itself; cp932 has a few many-to-one
  encodings).  The codec is stateless per character, so the string-level
  round trip is `filterMap`. -/

/-- The Python `str.startswith` check: character-by-character comparison of the
candidate against the start of the string (`sys.platform.startswith("win")`
at src/initialize.py:148). -/
def startsWithAux : List Char → List Char → Bool
  | _, [] => true
  | [], _ :: _ => false
  | c :: cs, p :: ps => c == p && startsWithAux cs ps

def pyStartsWith (s : String) (pre : String) : Bool :=
  startsWithAux s.data pre.data

def cp932RoundTrip (rt932 : Char → Option Char) (s : String) : String :=
  String.mk (s.data.filterMap rt932)

/-- The Windows branch of `adjust_string`: NFC normalization, then the
cp932 encode("ignore")/decode round trip. -/
def adjustWin (nfc : String → String) (rt932 : Char → Option Char) (s : String) : String :=
  cp932RoundTrip rt932 (nfc s)

/-- Embeds `adjust_string` on string input: apply the Windows transform only when
`sys.platform.startswith("win")`. -/
def adjust_str (platform : String) (nfc : String → String) (rt932 : Char → Option Char)
    (s : String) : String :=
  if pyStartsWith platform "win" then adjustWin nfc rt932 s else s

/-- Embeds `adjust_string(s)`: non-string values are returned unchanged; strings
go through the platform-dependent sanitizer. -/
def adjust_string (platform : String) (nfc : String → String) (rt932 : Char → Option Char)
    (v : PyVal) : PyVal :=
  match v with
  | .str s => .str (adjust_str platform nfc rt932 s)
  | .nonStr t => .nonStr t

/-! ### Session state (streamlit `st.session_state`)

Only the three keys this file touches are modelled; `none` means the key
is absent from the session-state mapping.  The retriever handle is an
abstract `Nat` (the ensemble retriever object is an external
collaborator). -/

structure SessionState where
  messages : Option (List String)
  session_id : Option String
  retriever : Option Nat
deriving DecidableEq

/-- Embeds `initialize_session_state` (src/initialize.py:85-90): initialize the
chat history to `[]` if absent. -/
def initialize_session_state (st : SessionState) : SessionState :=
  if st.messages.isNone then { st with messages := some [] } else st

/-- Embeds `initialize_session_id` (src/initialize.py:77-82): set
`st.session_state.session_id = uuid4().hex` only when absent.  The random
token produced by `uuid4().hex` is the parameter `fresh`. -/
def initialize_session_id (fresh : String) (st : SessionState) : SessionState :=
  if st.session_id.isNone then { st with session_id := some fresh } else st

/-! ### Logger: `initialize_logger` (src/initialize.py:53-74)

The named logger is process-wide state: a list of attached handlers and an
optional level.  A handler is modelled by its formatter string (the only
attribute the source configures that the claims are about; the rotating
file mechanics are external).  `os.makedirs` touches the file system only
and is not part of the logger state. -/

structure LogHandler where
  formatter : String
deriving DecidableEq

structure LoggerState where
  handlers : List LogHandler
  level : Option Nat
deriving DecidableEq

/-- The f-string passed to `logging.Formatter`, with the current session
identifier interpolated (src/initialize.py:69-71). -/
def formatString (session_id : String) : String :=
  "[%(levelname)s] %(asctime)s line %(lineno)s, in %(funcName)s, session_id=" ++
    session_id ++ ": %(message)s"

/-- The numeric value of `logging.INFO`. -/
def INFO_LEVEL : Nat := 20

/-- Embeds `initialize_logger`: if the named logger already has handlers, return;
otherwise attach one `TimedRotatingFileHandler` whose formatter embeds the
session identifier read from session state at attach time, and set the
level to INFO. -/
def initialize_logger (session_id : String) (lg : LoggerState) : LoggerState :=
  if lg.handlers ≠ [] then lg
  else { handlers := [{ formatter := formatString session_id }], level := some INFO_LEVEL }

/-! ### Catalog Enricher: `generate_stock_status` and
`initialize_stock_status` (src/initialize.py:157-220)

The OpenAI chat-completion call is the external collaborator: the raw
text of `response.choices[0].message["content"]` for the i-th call of a
run is `llm i`; an erroring API call is `Except.error msg`.
`generate_stock_status` itself only strips the response and validates it
against the fixed label set. -/

/-- The fixed three-label set `["あり", "残りわずか", "なし"]`. -/
def STOCK_LABELS : List String := ["あり", "残りわずか", "なし"]

/-- The whitespace set of Python's `str.strip()` (characters `c` with
`c.isspace()`): ASCII whitespace, the C1/Unicode space separators and the
line/paragraph separators. -/
def isPySpace (c : Char) : Bool :=
  c == ' ' || c == '\t' || c == '\n' || c == '\r' || c == '\x0b' || c == '\x0c' ||
  c == '\x1c' || c == '\x1d' || c == '\x1e' || c == '\x1f' ||
  c == '\x85' || c == '\xa0' || c == ' ' ||
  (' ' ≤ c && c ≤ ' ') ||
  c == ' ' || c == ' ' || c == ' ' || c == ' ' || c == '　'

/-- The Python `str.strip()` operation: drop leading and trailing whitespace. -/
def pyStrip (s : String) : String :=
  String.mk (((s.data.dropWhile isPySpace).reverse.dropWhile isPySpace).reverse)

/-- The repo-side post-processing of `generate_stock_status`
(src/initialize.py:214-220): strip the model's reply; replies outside the
fixed label set become the fallback `"なし"`. -/
def generate_stock_status (rawResponse : String) : String :=
  let stock_status := pyStrip rawResponse
  if stock_status ∈ STOCK_LABELS then stock_status else "なし"

/-! ### CSV files and `csv.DictReader` / `csv.DictWriter`

A CSV file on disk is the header line (`none` when the file is empty, so
`reader.fieldnames` is `None`) plus the data rows as lists of cell
strings.  `DictReader` turns a row into a dict keyed by the fieldnames
(`dict(zip(fieldnames, row))`, later occurrence of a duplicate key wins);
`DictWriter` writes a dict back as the values in fieldnames order
(`restval` defaults to `""`).  Ragged rows (restkey/restval padding) are
outside the modelled fragment; the claims' theorems carry length
hypotheses. -/

structure CSVFile where
  header : Option (List String)
  rows : List (List String)
deriving DecidableEq

/-- Python-dict lookup on an association list built left to right: the
last binding of a key wins (as in `dict(zip(...))` and dict assignment). -/
def dictGet : List (String × String) → String → Option String
  | [], _ => none
  | (k, v) :: rest, key =>
    match dictGet rest key with
    | some w => some w
    | none => if k == key then some v else none

/-- One data row as `DictReader` sees it: `dict(zip(fieldnames, vals))`. -/
def readRow (fieldnames : List String) (vals : List String) : List (String × String) :=
  fieldnames.zip vals

/-- Embeds `DictWriter.writerow`: emit the dict's values in fieldnames order,
missing keys becoming `restval` (default `""`). -/
def writeRow (fieldnames : List String) (row : List (String × String)) : List String :=
  fieldnames.map (fun f => (dictGet row f).getD "")

/-- The per-row loop of `initialize_stock_status`
(src/initialize.py:173-178): for each row, read `row["name"]` (a missing
key raises `KeyError`), call the classifier, validate the reply, and set
`row["stock_status"]`.  Returns the processed row-dicts and the list of
product names sent to the classifier; `i` is the index of the next
classifier call. -/
def enrichLoop (llm : Nat → Except String String) (fns : List String)
    (rows : List (List String)) (i : Nat) :
    Except String (List (List (String × String)) × List String) :=
  match rows with
  | [] => .ok ([], [])
  | vals :: rest =>
    match dictGet (readRow fns vals) "name" with
    | none => .error "KeyError: name"
    | some product_name =>
      match llm i with
      | .error e => .error e
      | .ok raw =>
        let stock_status := generate_stock_status raw
        let row := readRow fns vals ++ [("stock_status", stock_status)]
        match enrichLoop llm fns rest (i + 1) with
        | .error e => .error e
        | .ok (rows', calls) => .ok (row :: rows', product_name :: calls)

/-- Embeds `initialize_stock_status` (src/initialize.py:157-184): skip when the
file is empty (`reader.fieldnames` falsy) or the `stock_status` column
already exists; otherwise classify every row and only then overwrite the
file with `fieldnames = reader.fieldnames + ["stock_status"]`.  The
result is the written file plus the list of classifier calls made; an
uncaught exception is `Except.error`. -/
def initialize_stock_status (llm : Nat → Except String String) (f : CSVFile) :
    Except String (CSVFile × List String) :=
  match f.header with
  | none => .ok (f, [])
  | some fns =>
    if fns = [] ∨ "stock_status" ∈ fns then .ok (f, [])
    else
      let fieldnames := fns ++ ["stock_status"]
      match enrichLoop llm fns f.rows 0 with
      | .error e => .error e
      | .ok (rows, calls) =>
        .ok ({ header := some fieldnames, rows := rows.map (writeRow fieldnames) }, calls)

/-- The shape `enrichLoop` gives the processed row-dicts: each original
row-dict (`dict(zip(fns, vals))`) with `("stock_status", label)` appended,
where the label validates the i-th classifier response. -/
def enrichedDictRows (raws : Nat → String) (fns : List String) :
    List (List String) → Nat → List (List (String × String))
  | [], _ => []
  | vals :: rest, i =>
    (fns.zip vals ++ [("stock_status", generate_stock_status (raws i))]) ::
      enrichedDictRows raws fns rest (i + 1)

/-- The shape of the rewritten CSV rows: every original row's cells in
their original order, followed by the generated stock-status label. -/
def enrichedRows (raws : Nat → String) : List (List String) → Nat → List (List String)
  | [], _ => []
  | vals :: rest, i =>
    (vals ++ [generate_stock_status (raws i)]) :: enrichedRows raws rest (i + 1)

/-- The state of the CSV file on disk after `initialize_stock_status`
runs: unchanged when the routine raised (the overwrite at
src/initialize.py:181-184 happens only after every row succeeded). -/
def stockStatusFinalFile (llm : Nat → Except String String) (f : CSVFile) : CSVFile :=
  match initialize_stock_status llm f with
  | .ok (g, _) => g
  | .error _ => f

/-! ### Hybrid Retriever Builder: `initialize_retriever`
(src/initialize.py:93-130)

`CSVLoader.load`, `OpenAIEmbeddings`/`Chroma.from_documents`,
`BM25Retriever.from_texts` and `EnsembleRetriever` are external
collaborators gathered in `RetrieverEnv`; retriever objects are abstract
`Nat` handles.  The document-sanitization loop (lines 106-109) is repo
code and is embedded via `adjust_string`.  The returned `Nat` counts how
many times the build path (everything after the guard) executed in this
call. -/

structure Document where
  page_content : String
  metadata : List (String × PyVal)

structure RetrieverEnv where
  loadDocs : List Document
  platform : String
  nfc : String → String
  rt932 : Char → Option Char
  fromDocuments : List Document → Nat
  fromTexts : List String → Nat
  mkEnsemble : Nat → Nat → Nat

/-- The sanitization loop body (src/initialize.py:106-109):
`doc.page_content = adjust_string(doc.page_content)` and every metadata
value through `adjust_string`. -/
def sanitizeDoc (platform : String) (nfc : String → String) (rt932 : Char → Option Char)
    (d : Document) : Document :=
  { page_content := adjust_str platform nfc rt932 d.page_content
    metadata := d.metadata.map (fun kv => (kv.1, adjust_string platform nfc rt932 kv.2)) }

/-- Embeds `initialize_retriever`: short-circuit when `"retriever"` is already in
session state; otherwise load the CSV as documents, sanitize them, build
the vector-store retriever and the BM25 retriever, combine them into the
ensemble, and store it in session state. -/
def initialize_retriever (env : RetrieverEnv) (st : SessionState) : SessionState × Nat :=
  if st.retriever.isSome then (st, 0)
  else
    let docs := env.loadDocs.map (sanitizeDoc env.platform env.nfc env.rt932)
    let docs_all := docs.map (fun d => d.page_content)
    let retriever := env.fromDocuments docs
    let bm25_retriever := env.fromTexts docs_all
    let ensemble_retriever := env.mkEnsemble bm25_retriever retriever
    ({ st with retriever := some ensemble_retriever }, 1)

/-! ## Helper lemmas -/

/-- One unfolding step of `dictGet`. -/
theorem dictGet_cons (a b key : String) (l : List (String × String)) :
    dictGet ((a, b) :: l) key =
      match dictGet l key with
      | some w => some w
      | none => if a == key then some b else none := rfl

/-- Appending a final binding to a dict: the new binding wins for its own
key and is invisible for every other key. -/
theorem dictGet_append_single (l : List (String × String)) (k key v : String) :
    dictGet (l ++ [(k, v)]) key = if k == key then some v else dictGet l key := by
  induction l with
  | nil => simp [dictGet]
  | cons hd tl ih =>
    obtain ⟨a, b⟩ := hd
    rw [List.cons_append, dictGet_cons, ih, dictGet_cons]
    cases hkey : k == key <;> cases h2 : dictGet tl key <;> simp [hkey, h2]

/-- Lookup of an absent key fails. -/
theorem dictGet_eq_none_of_not_mem (l : List (String × String)) (key : String)
    (h : key ∉ l.map Prod.fst) : dictGet l key = none := by
  induction l with
  | nil => rfl
  | cons hd tl ih =>
    obtain ⟨a, b⟩ := hd
    simp only [List.map_cons, List.mem_cons] at h
    push_neg at h
    have hne : (a == key) = false := beq_eq_false_iff_ne.mpr (Ne.symm h.1)
    rw [dictGet_cons, ih h.2]
    simp [hne]

/-- A leading binding for a different key does not affect lookup. -/
theorem dictGet_cons_ne (a b key : String) (l : List (String × String))
    (h : a ≠ key) : dictGet ((a, b) :: l) key = dictGet l key := by
  rw [dictGet_cons]
  cases h2 : dictGet l key <;> simp [h]

/-- Reading every field of `dict(zip(fns, vals))` back in field order
recovers the original cell values (fieldnames distinct, row not ragged). -/
theorem dictGet_zip_nodup (fns : List String) (vals : List String)
    (hnd : fns.Nodup) (hlen : vals.length = fns.length) :
    fns.map (fun f => (dictGet (fns.zip vals) f).getD "") = vals := by
  induction fns generalizing vals with
  | nil =>
    cases vals with
    | nil => rfl
    | cons v vs => simp at hlen
  | cons c fns' ih =>
    cases vals with
    | nil => simp at hlen
    | cons v vs =>
      simp only [List.length_cons, Nat.succ_inj] at hlen
      simp only [List.nodup_cons] at hnd
      rw [List.zip_cons_cons, List.map_cons]
      have hnone : dictGet (fns'.zip vs) c = none := by
        apply dictGet_eq_none_of_not_mem
        intro hmem
        apply hnd.1
        have hfst := List.map_fst_zip fns' vs (by omega)
        rw [hfst] at hmem
        exact hmem
      have hhead : dictGet ((c, v) :: fns'.zip vs) c = some v := by
        rw [dictGet_cons, hnone]
        simp
      rw [hhead]
      have hmap : fns'.map (fun f => (dictGet ((c, v) :: fns'.zip vs) f).getD "")
          = fns'.map (fun f => (dictGet (fns'.zip vs) f).getD "") := by
        apply List.map_congr_left
        intro f hf
        rw [dictGet_cons_ne]
        intro hcf
        exact hnd.1 (hcf ▸ hf)
      rw [hmap, ih vs hnd.2 hlen]
      rfl

/-- Looking up a fieldname that occurs in the header of a non-ragged row
always succeeds (`row["name"]` raises no `KeyError`). -/
theorem dictGet_zip_mem (fns : List String) (vals : List String) (f : String)
    (hf : f ∈ fns) (hlen : vals.length = fns.length) :
    ∃ v, dictGet (fns.zip vals) f = some v := by
  induction fns generalizing vals with
  | nil => simp at hf
  | cons c fns' ih =>
    cases vals with
    | nil => simp at hlen
    | cons v vs =>
      simp only [List.length_cons, Nat.succ_inj] at hlen
      rw [List.zip_cons_cons, dictGet_cons]
      cases h2 : dictGet (fns'.zip vs) f with
      | some w => exact ⟨w, by simp⟩
      | none =>
        rcases List.mem_cons.mp hf with hfc | hfm
        · subst hfc
          simp
        · obtain ⟨w, hw⟩ := ih vs hfm hlen
          rw [hw] at h2
          exact absurd h2 (by simp)

/-- Writing an enriched row-dict through `DictWriter` with the extended
fieldnames emits exactly the original cells followed by the label. -/
theorem writeRow_enriched (fns : List String) (vals : List String) (lab : String)
    (hnd : fns.Nodup) (hss : "stock_status" ∉ fns) (hlen : vals.length = fns.length) :
    writeRow (fns ++ ["stock_status"]) (fns.zip vals ++ [("stock_status", lab)])
      = vals ++ [lab] := by
  unfold writeRow
  rw [List.map_append]
  have h1 : fns.map (fun f => (dictGet (fns.zip vals ++ [("stock_status", lab)]) f).getD "")
      = vals := by
    have hcong : fns.map (fun f => (dictGet (fns.zip vals ++ [("stock_status", lab)]) f).getD "")
        = fns.map (fun f => (dictGet (fns.zip vals) f).getD "") := by
      apply List.map_congr_left
      intro f hf
      rw [dictGet_append_single]
      have : ("stock_status" == f) = false :=
        beq_eq_false_iff_ne.mpr (fun hc => hss (hc ▸ hf))
      simp [this]
    rw [hcong, dictGet_zip_nodup fns vals hnd hlen]
  have h2 : (["stock_status"].map
      (fun f => (dictGet (fns.zip vals ++ [("stock_status", lab)]) f).getD "")) = [lab] := by
    simp [dictGet_append_single]
  rw [h1, h2]

/-- When every classifier call succeeds, the per-row loop succeeds and
returns exactly the enriched row-dicts. -/
theorem enrichLoop_ok (llm : Nat → Except String String) (raws : Nat → String)
    (fns : List String) (hnm : "name" ∈ fns)
    (hllm : ∀ j, llm j = .ok (raws j)) :
    ∀ (rows : List (List String)) (i : Nat),
      (∀ vals ∈ rows, vals.length = fns.length) →
      ∃ calls, enrichLoop llm fns rows i = .ok (enrichedDictRows raws fns rows i, calls) := by
  intro rows
  induction rows with
  | nil => intro i _; exact ⟨[], rfl⟩
  | cons vals rest ih =>
    intro i hlen
    obtain ⟨nm, hnm2⟩ := dictGet_zip_mem fns vals "name" hnm (hlen vals (by simp))
    obtain ⟨calls', hloop⟩ := ih (i + 1) (fun v hv => hlen v (by simp [hv]))
    refine ⟨nm :: calls', ?_⟩
    rw [enrichLoop]
    rw [show readRow fns vals = fns.zip vals from rfl, hnm2, hllm i, hloop]
    rfl

/-- Writing the enriched row-dicts through `DictWriter` yields the
original rows with the generated label appended to each. -/
theorem map_writeRow_enrichedDictRows (raws : Nat → String) (fns : List String)
    (hnd : fns.Nodup) (hss : "stock_status" ∉ fns) :
    ∀ (rows : List (List String)) (i : Nat),
      (∀ vals ∈ rows, vals.length = fns.length) →
      (enrichedDictRows raws fns rows i).map (writeRow (fns ++ ["stock_status"]))
        = enrichedRows raws rows i := by
  intro rows
  induction rows with
  | nil => intro i _; rfl
  | cons vals rest ih =>
    intro i hlen
    rw [enrichedDictRows, enrichedRows, List.map_cons,
      writeRow_enriched fns vals _ hnd hss (hlen vals (by simp)),
      ih (i + 1) (fun v hv => hlen v (by simp [hv]))]

/-- If the classifier errors at the k-th call (all earlier calls
succeeding), the per-row loop propagates an error. -/
theorem enrichLoop_error (llm : Nat → Except String String) (fns : List String)
    (hnm : "name" ∈ fns) :
    ∀ (k : Nat) (rows : List (List String)) (i : Nat),
      (∀ vals ∈ rows, vals.length = fns.length) →
      k < rows.length →
      (∀ j, j < k → ∃ s, llm (i + j) = .ok s) →
      (∃ e, llm (i + k) = .error e) →
      ∃ e', enrichLoop llm fns rows i = .error e' := by
  intro k
  induction k with
  | zero =>
    intro rows i hlen hk hok herr0
    obtain ⟨e, herr⟩ := herr0
    cases rows with
    | nil => simp at hk
    | cons vals rest =>
      obtain ⟨nm, hnm2⟩ := dictGet_zip_mem fns vals "name" hnm (hlen vals (by simp))
      refine ⟨e, ?_⟩
      rw [enrichLoop, show readRow fns vals = fns.zip vals from rfl, hnm2]
      rw [show i + 0 = i from rfl] at herr
      rw [herr]
  | succ k ih =>
    intro rows i hlen hk hok herr0
    obtain ⟨e, herr⟩ := herr0
    cases rows with
    | nil => simp at hk
    | cons vals rest =>
      obtain ⟨nm, hnm2⟩ := dictGet_zip_mem fns vals "name" hnm (hlen vals (by simp))
      obtain ⟨s0, hs0⟩ := hok 0 (by omega)
      rw [show i + 0 = i from rfl] at hs0
      obtain ⟨e', hloop⟩ := ih rest (i + 1)
        (fun v hv => hlen v (by simp [hv]))
        (by simp at hk; omega)
        (fun j hj => by
          obtain ⟨s, hs⟩ := hok (j + 1) (by omega)
          exact ⟨s, by rw [show i + 1 + j = i + (j + 1) by omega]; exact hs⟩)
        ⟨e, by rw [show i + 1 + k = i + (k + 1) by omega]; exact herr⟩
      refine ⟨e', ?_⟩
      rw [enrichLoop, show readRow fns vals = fns.zip vals from rfl, hnm2, hs0, hloop]

/-- Folding further `initialize_logger` calls over a logger that already
has a handler changes nothing. -/
theorem foldl_initialize_logger_ne (sids : List String) (l : LoggerState)
    (h : l.handlers ≠ []) :
    sids.foldl (fun lg s => initialize_logger s lg) l = l := by
  induction sids with
  | nil => rfl
  | cons s rest ih =>
    have h1 : initialize_logger s l = l := by simp [initialize_logger, h]
    simp only [List.foldl_cons, h1, ih]

/-- Dropping characters a second time through a stable per-character map
changes nothing (the cp932 round trip is stable on its own image). -/
theorem filterMap_stable_idem (rt932 : Char → Option Char)
    (hrt : ∀ c c', rt932 c = some c' → rt932 c' = some c') (l : List Char) :
    (l.filterMap rt932).filterMap rt932 = l.filterMap rt932 := by
  induction l with
  | nil => rfl
  | cons a l ih =>
    cases h : rt932 a with
    | none => simp [List.filterMap_cons, h, ih]
    | some b => simp [List.filterMap_cons, h, hrt a b h, ih]

/-- The cp932 encode("ignore")/decode round trip is idempotent, given that
every character it can output is stable under it. -/
theorem cp932RoundTrip_idem (rt932 : Char → Option Char)
    (hrt : ∀ c c', rt932 c = some c' → rt932 c' = some c') (s : String) :
    cp932RoundTrip rt932 (cp932RoundTrip rt932 s) = cp932RoundTrip rt932 s := by
  unfold cp932RoundTrip
  rw [show (String.mk (s.data.filterMap rt932)).data = s.data.filterMap rt932 from rfl]
  rw [filterMap_stable_idem rt932 hrt]

/-! ## Claim theorems -/

/-- C1: for every CSV catalog file whose header row contains a
`stock_status` column or which has no rows, `initialize_stock_status`
exits without modifying the file and without making any classification
calls; and after any successful run, a second run is a no-op returning
the first run output unchanged with no classification calls. -/
theorem initialize_stock_status_guard_noop_idempotent
    (llm llm' : Nat → Except String String) (f : CSVFile) :
    (f.header = none ∨ (∃ fns, f.header = some fns ∧ "stock_status" ∈ fns) →
      initialize_stock_status llm f = .ok (f, [])) ∧
    (∀ g calls, initialize_stock_status llm f = .ok (g, calls) →
      initialize_stock_status llm' g = .ok (g, [])) := by
  constructor
  · rintro (hnone | ⟨fns, hsome, hmem⟩)
    · simp [initialize_stock_status, hnone]
    · simp [initialize_stock_status, hsome, hmem]
  · intro g calls hrun
    cases hh : f.header with
    | none =>
      simp only [initialize_stock_status, hh] at hrun
      injection hrun with h1
      injection h1 with h2 h3
      subst h2
      simp [initialize_stock_status, hh]
    | some fns =>
      simp only [initialize_stock_status, hh] at hrun
      by_cases hg : fns = [] ∨ "stock_status" ∈ fns
      · rw [if_pos hg] at hrun
        injection hrun with h1
        injection h1 with h2 h3
        subst h2
        simp only [initialize_stock_status, hh]
        rw [if_pos hg]
      · rw [if_neg hg] at hrun
        cases hloop : enrichLoop llm fns f.rows 0 with
        | error e => rw [hloop] at hrun; simp at hrun
        | ok p =>
          rw [hloop] at hrun
          obtain ⟨rows', calls'⟩ := p
          simp only at hrun
          injection hrun with h1
          injection h1 with h2 h3
          subst h2
          simp [initialize_stock_status]

/-- Witness for C1: a file whose header already has `stock_status` is
returned untouched with no calls, and re-running on the output of the
Widget/Gadget enrichment run is a no-op. -/
theorem initialize_stock_status_guard_noop_idempotent_witness :
    initialize_stock_status (fun _ => .ok "x")
        (CSVFile.mk (some ["name", "stock_status"]) [["a", "b"]])
      = .ok (CSVFile.mk (some ["name", "stock_status"]) [["a", "b"]], []) ∧
    initialize_stock_status (fun _ => .ok "x")
        (CSVFile.mk (some ["name", "stock_status"])
          [["Widget", "あり"], ["Gadget", "残りわずか"]])
      = .ok (CSVFile.mk (some ["name", "stock_status"])
          [["Widget", "あり"], ["Gadget", "残りわずか"]], []) :=
  ⟨(initialize_stock_status_guard_noop_idempotent (fun _ => .ok "x") (fun _ => .ok "x")
      (CSVFile.mk (some ["name", "stock_status"]) [["a", "b"]])).1
    (Or.inr ⟨["name", "stock_status"], rfl, by decide⟩),
   (initialize_stock_status_guard_noop_idempotent
      (fun i => .ok (if i = 0 then "あり" else "残りわずか")) (fun _ => .ok "x")
      (CSVFile.mk (some ["name"]) [["Widget"], ["Gadget"]])).2
    (CSVFile.mk (some ["name", "stock_status"])
      [["Widget", "あり"], ["Gadget", "残りわずか"]])
    ["Widget", "Gadget"] rfl⟩

/-- C2: for every classifier response, `generate_stock_status` returns
the stripped response when it is one of the three literal labels and the
fallback label "なし" otherwise; the result is always one of the three
labels. -/
theorem generate_stock_status_label_spec (raw : String) :
    (pyStrip raw ∈ STOCK_LABELS → generate_stock_status raw = pyStrip raw) ∧
    (pyStrip raw ∉ STOCK_LABELS → generate_stock_status raw = "なし") ∧
    generate_stock_status raw ∈ STOCK_LABELS := by
  by_cases h : pyStrip raw ∈ STOCK_LABELS <;>
    simp [generate_stock_status, h]
  decide

/-- Witness for C2: a padded valid label passes through stripped, and an
out-of-set reply becomes the fallback. -/
theorem generate_stock_status_label_spec_witness :
    (pyStrip " あり " ∈ STOCK_LABELS ∧ generate_stock_status " あり " = pyStrip " あり ") ∧
    (pyStrip "yes" ∉ STOCK_LABELS ∧ generate_stock_status "yes" = "なし") :=
  ⟨⟨by decide, (generate_stock_status_label_spec " あり ").1 (by decide)⟩,
   ⟨by decide, (generate_stock_status_label_spec "yes").2.1 (by decide)⟩⟩

/-- C3: on a catalog whose header has `name` but not `stock_status`,
enrichment succeeds and overwrites the file with the original columns in
order plus `stock_status` last, each row keeping its original cells
followed by the validated label of its classifier call; in particular it
maps the Widget/Gadget catalog with the stub classifier to the expected
two enriched rows. -/
theorem initialize_stock_status_enrichment_spec
    (llm : Nat → Except String String) (raws : Nat → String)
    (fns : List String) (f : CSVFile)
    (hh : f.header = some fns) (hnm : "name" ∈ fns) (hss : "stock_status" ∉ fns)
    (hnd : fns.Nodup) (hlen : ∀ vals ∈ f.rows, vals.length = fns.length)
    (hllm : ∀ j, llm j = .ok (raws j)) :
    (∃ calls, initialize_stock_status llm f =
      .ok (CSVFile.mk (some (fns ++ ["stock_status"])) (enrichedRows raws f.rows 0), calls)) ∧
    initialize_stock_status
        (fun i => .ok (if i = 0 then "あり" else "残りわずか"))
        (CSVFile.mk (some ["name"]) [["Widget"], ["Gadget"]])
      = .ok (CSVFile.mk (some ["name", "stock_status"])
          [["Widget", "あり"], ["Gadget", "残りわずか"]], ["Widget", "Gadget"]) := by
  constructor
  · obtain ⟨calls, hloop⟩ := enrichLoop_ok llm raws fns hnm hllm f.rows 0 hlen
    refine ⟨calls, ?_⟩
    have hne : fns ≠ [] := by
      intro hc; rw [hc] at hnm; simp at hnm
    simp only [initialize_stock_status, hh]
    rw [if_neg (by simp [hne, hss]), hloop]
    simp only
    rw [map_writeRow_enrichedDictRows raws fns hnd hss f.rows 0 hlen]
  · rfl

/-- Witness for C3: the general statement applied to the Widget/Gadget
catalog with the stub classifier. -/
theorem initialize_stock_status_enrichment_spec_witness :
    (∃ calls, initialize_stock_status
        (fun i => .ok (if i = 0 then "あり" else "残りわずか"))
        (CSVFile.mk (some ["name"]) [["Widget"], ["Gadget"]])
      = .ok (CSVFile.mk (some (["name"] ++ ["stock_status"]))
          (enrichedRows (fun i => if i = 0 then "あり" else "残りわずか")
            [["Widget"], ["Gadget"]] 0), calls)) ∧
    initialize_stock_status
        (fun i => .ok (if i = 0 then "あり" else "残りわずか"))
        (CSVFile.mk (some ["name"]) [["Widget"], ["Gadget"]])
      = .ok (CSVFile.mk (some ["name", "stock_status"])
          [["Widget", "あり"], ["Gadget", "残りわずか"]], ["Widget", "Gadget"]) :=
  initialize_stock_status_enrichment_spec
    (fun i => .ok (if i = 0 then "あり" else "残りわずか"))
    (fun i => if i = 0 then "あり" else "残りわずか")
    ["name"] (CSVFile.mk (some ["name"]) [["Widget"], ["Gadget"]])
    rfl (by decide) (by decide) (by decide) (by decide) (fun j => rfl)

/-- C4: an error raised by the classification call while processing any
data row propagates out of `initialize_stock_status`, and the CSV file on
disk is left exactly unchanged, because the overwrite happens only after
every row has been classified. -/
theorem initialize_stock_status_error_atomicity
    (llm : Nat → Except String String) (f : CSVFile) :
    (∀ e, initialize_stock_status llm f = .error e → stockStatusFinalFile llm f = f) ∧
    (∀ fns k e, f.header = some fns → "stock_status" ∉ fns → "name" ∈ fns →
      (∀ vals ∈ f.rows, vals.length = fns.length) →
      k < f.rows.length → (∀ j, j < k → ∃ s, llm j = .ok s) → llm k = .error e →
      (∃ e', initialize_stock_status llm f = .error e') ∧
        stockStatusFinalFile llm f = f) := by
  constructor
  · intro e herr
    unfold stockStatusFinalFile
    rw [herr]
  · intro fns k e hh hss hnm hlen hk hok herr
    have hne : fns ≠ [] := by
      intro hc; rw [hc] at hnm; simp at hnm
    obtain ⟨e', hloop⟩ := enrichLoop_error llm fns hnm k f.rows 0 hlen hk
      (fun j hj => by simpa using hok j hj) ⟨e, by simpa using herr⟩
    have hrun : initialize_stock_status llm f = .error e' := by
      simp only [initialize_stock_status, hh]
      rw [if_neg (by simp [hne, hss]), hloop]
    exact ⟨⟨e', hrun⟩, by unfold stockStatusFinalFile; rw [hrun]⟩

/-- Witness for C4: a classifier that fails on the second row aborts the
whole enrichment of a two-row catalog and the file is unchanged. -/
theorem initialize_stock_status_error_atomicity_witness :
    (∃ e', initialize_stock_status
        (fun i => if i = 0 then Except.ok "あり" else Except.error "boom")
        (CSVFile.mk (some ["name"]) [["a"], ["b"]]) = .error e') ∧
    stockStatusFinalFile
        (fun i => if i = 0 then Except.ok "あり" else Except.error "boom")
        (CSVFile.mk (some ["name"]) [["a"], ["b"]])
      = CSVFile.mk (some ["name"]) [["a"], ["b"]] :=
  (initialize_stock_status_error_atomicity
      (fun i => if i = 0 then Except.ok "あり" else Except.error "boom")
      (CSVFile.mk (some ["name"]) [["a"], ["b"]])).2
    ["name"] 1 "boom" rfl (by decide) (by decide) (by decide) (by decide)
    (by
      intro j hj
      have hj0 : j = 0 := by omega
      subst hj0
      exact ⟨"あり", rfl⟩)
    rfl

/-- C5: for every input value that is not a string, `adjust_string`
returns that value unchanged, on every platform. -/
theorem adjust_string_nonstring_identity (platform : String) (nfc : String → String)
    (rt932 : Char → Option Char) (v : PyVal) (h : ∀ s, v ≠ PyVal.str s) :
    adjust_string platform nfc rt932 v = v := by
  cases v with
  | str s => exact absurd rfl (h s)
  | nonStr t => rfl

/-- Witness for C5: a non-string value passes through unchanged on a
Windows platform string. -/
theorem adjust_string_nonstring_identity_witness :
    adjust_string "win32" id some (PyVal.nonStr 0) = PyVal.nonStr 0 :=
  adjust_string_nonstring_identity "win32" id some (PyVal.nonStr 0)
    (fun _ h => PyVal.noConfusion h)

/-- C6: for every string input, when the platform does not start with
"win", `adjust_string` returns the string unchanged. -/
theorem adjust_string_nonwindows_identity (platform : String) (nfc : String → String)
    (rt932 : Char → Option Char) (s : String)
    (h : pyStartsWith platform "win" = false) :
    adjust_string platform nfc rt932 (PyVal.str s) = PyVal.str s := by
  simp [adjust_string, adjust_str, h]

/-- Witness for C6: on "linux" a string survives unchanged. -/
theorem adjust_string_nonwindows_identity_witness :
    (pyStartsWith "linux" "win" = false) ∧
    adjust_string "linux" id some (PyVal.str "abc") = PyVal.str "abc" :=
  ⟨by decide, adjust_string_nonwindows_identity "linux" id some "abc" (by decide)⟩

/-- C7: when a session identifier is already present,
`initialize_session_id` leaves the state unchanged, and in general the
identifier after two initialize calls equals the identifier after one. -/
theorem initialize_session_id_stability (fresh fresh' : String) (st : SessionState) :
    (st.session_id.isSome → initialize_session_id fresh st = st) ∧
    (initialize_session_id fresh' (initialize_session_id fresh st)).session_id
      = (initialize_session_id fresh st).session_id := by
  cases h : st.session_id <;> simp [initialize_session_id, h]

/-- Witness for C7: a state that already carries a session id is returned
unchanged. -/
theorem initialize_session_id_stability_witness :
    ((SessionState.mk (some []) (some "sid") none).session_id.isSome = true) ∧
    initialize_session_id "new" (SessionState.mk (some []) (some "sid") none)
      = SessionState.mk (some []) (some "sid") none :=
  ⟨rfl, (initialize_session_id_stability "new" "x"
    (SessionState.mk (some []) (some "sid") none)).1 rfl⟩

/-- C8: when the retriever key is present, `initialize_retriever` returns
the state unchanged having run the build path zero times; a second call
after any first call never builds, and a first call on a state without a
retriever builds exactly once. -/
theorem initialize_retriever_build_once (env env' : RetrieverEnv) (st : SessionState) :
    (st.retriever.isSome → initialize_retriever env st = (st, 0)) ∧
    (initialize_retriever env' (initialize_retriever env st).1).2 = 0 ∧
    (st.retriever = none → (initialize_retriever env st).2 = 1) := by
  cases h : st.retriever <;> simp [initialize_retriever, h]

/-- Witness for C8: with a retriever already in session state the builder
returns immediately with a build count of zero. -/
theorem initialize_retriever_build_once_witness :
    ((SessionState.mk none none (some 5)).retriever.isSome = true) ∧
    initialize_retriever
        (RetrieverEnv.mk [] "linux" id some (fun _ => 0) (fun _ => 0) (fun _ _ => 0))
        (SessionState.mk none none (some 5))
      = (SessionState.mk none none (some 5), 0) :=
  ⟨rfl, (initialize_retriever_build_once
    (RetrieverEnv.mk [] "linux" id some (fun _ => 0) (fun _ => 0) (fun _ _ => 0))
    (RetrieverEnv.mk [] "linux" id some (fun _ => 0) (fun _ => 0) (fun _ _ => 0))
    (SessionState.mk none none (some 5))).1 rfl⟩

/-- C9: `initialize_logger` attaches a handler only when the named logger
has none, so starting from a handlerless logger any sequence of calls
leaves exactly the one handler attached by the first call, its formatter
embedding the session identifier passed at attach time; calls on a logger
that already has a handler change nothing. -/
theorem initialize_logger_attach_once (sid sid1 : String) (sids : List String)
    (lg : LoggerState) :
    (lg.handlers ≠ [] → initialize_logger sid lg = lg) ∧
    ((sids.foldl (fun l s => initialize_logger s l)
        (initialize_logger sid1 (LoggerState.mk [] none))).handlers
      = [LogHandler.mk (formatString sid1)]) := by
  constructor
  · intro h
    simp [initialize_logger, h]
  · have h1 : initialize_logger sid1 (LoggerState.mk [] none)
        = LoggerState.mk [LogHandler.mk (formatString sid1)] (some INFO_LEVEL) := by
      simp [initialize_logger]
    rw [h1, foldl_initialize_logger_ne]
    simp

/-- Witness for C9: a logger with an attached handler is not modified by
a later session. -/
theorem initialize_logger_attach_once_witness :
    ((LoggerState.mk [LogHandler.mk "f"] none).handlers ≠ []) ∧
    initialize_logger "sid2" (LoggerState.mk [LogHandler.mk "f"] none)
      = LoggerState.mk [LogHandler.mk "f"] none :=
  ⟨by decide, (initialize_logger_attach_once "sid2" "x" []
    (LoggerState.mk [LogHandler.mk "f"] none)).1 (by decide)⟩

/-- C10: on a Windows platform, `adjust_string` is idempotent on strings:
given that the cp932 round trip is stable on its own output characters
and that NFC leaves the sanitized output fixed (both facts of the real
Unicode tables and the cp932 code page), applying the sanitizer twice
equals applying it once. -/
theorem adjust_string_windows_idempotent (platform : String) (nfc : String → String)
    (rt932 : Char → Option Char)
    (hwin : pyStartsWith platform "win" = true)
    (hrt : ∀ c c', rt932 c = some c' → rt932 c' = some c')
    (hnfc : ∀ s, nfc (cp932RoundTrip rt932 (nfc s)) = cp932RoundTrip rt932 (nfc s))
    (s : String) :
    adjust_string platform nfc rt932 (adjust_string platform nfc rt932 (PyVal.str s))
      = adjust_string platform nfc rt932 (PyVal.str s) := by
  simp only [adjust_string, adjust_str, hwin, if_true, adjustWin]
  rw [hnfc, cp932RoundTrip_idem rt932 hrt]

/-- Witness for C10: the theorem applied on "win32" with the identity
normalizer and an all-representable code page. -/
theorem adjust_string_windows_idempotent_witness :
    (pyStartsWith "win32" "win" = true) ∧
    adjust_string "win32" id some (adjust_string "win32" id some (PyVal.str "あり"))
      = adjust_string "win32" id some (PyVal.str "あり") :=
  ⟨by decide, adjust_string_windows_idempotent "win32" id some (by decide)
    (fun c c' h => rfl)
    (fun s => rfl) "あり"⟩

end ProductRecommend
